import Mathlib

/-!
Verification of the ATF Validation & Diff Engine against its source
(`src/tools/validator/validator.py` and `src/tools/feed-manager/manager.py`).

The Python code is shallowly embedded.  An XML feed becomes the typed
document tree of the data model (channel metadata plus a list of items,
each carrying categories and an impact assessment); every validation rule
of `ATFValidator` becomes a pure Lean function from the document (and the
validation instant `now`, standing for `datetime.utcnow()`) to a list of
`ValidationError` values; the byte-oriented helpers of `FeedManager` work
over `List Nat` byte buffers.  The external collaborators that the source
merely calls into — the lxml parser, the XSD engine, `hashlib` — enter as
parameters (the parse outcome, the schema error log) or by their
documented semantics (the digest of the concatenation of all fed bytes).

Python regular expressions are translated acceptor by acceptor; note that
`re`'s `$` also matches just before one trailing newline, which
`pyDollarMatch` reproduces, and that `datetime.strptime` accepts one- or
two-digit month/day/hour/minute/second fields and case-insensitive
literals, which `parsePyDate` reproduces.
-/

namespace ATF

/-- One `<metric name=...>value</metric>` element is a (name, value) pair;
an impact assessment carries the `affectedUsers` text and the metric
elements in document order. -/
structure ImpactAssessment where
  affectedUsers : String
  metrics : List (String × String)
  deriving DecidableEq

/-- One `<item>` of the feed: its channel-like fields, its category names
in document order, and its impact assessment. -/
structure FeedItem where
  title : String
  link : String
  pubDate : String
  description : String
  categories : List String
  impact : ImpactAssessment
  deriving DecidableEq

/-- The parsed feed: channel metadata plus the ordered items.
`lastBuildDate` and `language` are `Option` because the source looks them
up with `doc.find`, which may return no element. -/
structure FeedDocument where
  title : String
  link : String
  description : String
  lastBuildDate : Option String
  language : Option String
  items : List FeedItem
  deriving DecidableEq

/-- `doc.findall(".//{*}pubDate")` in document order: one per item. -/
def pubDatesOf (d : FeedDocument) : List String :=
  d.items.map FeedItem.pubDate

/-- `doc.findall(".//{*}metric")` in document order. -/
def metricsOf (d : FeedDocument) : List (String × String) :=
  List.flatten (d.items.map fun it => it.impact.metrics)

/-- `doc.findall(".//{*}affectedUsers")` in document order. -/
def affectedOf (d : FeedDocument) : List String :=
  d.items.map fun it => it.impact.affectedUsers

/-- `doc.findall(".//{*}category")` in document order. -/
def categoriesOf (d : FeedDocument) : List String :=
  List.flatten (d.items.map FeedItem.categories)

/-- `doc.findall(".//{*}link")` in document order: the channel link comes
first, then each item's link. -/
def docLinks (d : FeedDocument) : List String :=
  d.link :: d.items.map FeedItem.link

/-- The validation findings.  The source appends formatted message
strings; each constructor stands for one `errors.append(...)` site and
carries the data interpolated into that message. -/
inductive ValidationError where
  | sizeExceeded
  | parseError
  | schemaErr (msg : String)
  | dateFormat (field value : String)
  | dateFuture (field value : String)
  | uriScheme (url : String)
  | uriFormat (url : String)
  | uriSpaces (url : String)
  | uriDomain (url : String)
  | uriParseFail (url : String)
  | pctAffected (value : String)
  | pctMetric (value : String)
  | metricFormat (name value : String)
  | metricInconsistent (name value : String)
  | categoryNonstandard (name : String)
  | categoryFormat (name : String)
  | languageUnsupported (code : String)
  | retentionTooShort (days : Int)
  deriving DecidableEq

/-- The error taxonomy of spec §6. -/
inductive ErrorKind where
  | SIZE_EXCEEDED
  | PARSE_ERROR
  | SCHEMA
  | DATE_FORMAT
  | DATE_FUTURE
  | URI_INVALID
  | PERCENTAGE_FORMAT
  | METRIC_FORMAT
  | METRIC_INCONSISTENT
  | CATEGORY_FORMAT
  | CATEGORY_NONSTANDARD
  | LANGUAGE_UNSUPPORTED
  | RETENTION_TOO_SHORT
  deriving DecidableEq

/-- Kind of each finding, following the spec's mapping of the source's
message sites onto §6's enumeration (all four URI message sites are
`URI_INVALID`, both percentage sites are `PERCENTAGE_FORMAT`). -/
def ValidationError.kind : ValidationError → ErrorKind
  | .sizeExceeded => .SIZE_EXCEEDED
  | .parseError => .PARSE_ERROR
  | .schemaErr _ => .SCHEMA
  | .dateFormat _ _ => .DATE_FORMAT
  | .dateFuture _ _ => .DATE_FUTURE
  | .uriScheme _ => .URI_INVALID
  | .uriFormat _ => .URI_INVALID
  | .uriSpaces _ => .URI_INVALID
  | .uriDomain _ => .URI_INVALID
  | .uriParseFail _ => .URI_INVALID
  | .pctAffected _ => .PERCENTAGE_FORMAT
  | .pctMetric _ => .PERCENTAGE_FORMAT
  | .metricFormat _ _ => .METRIC_FORMAT
  | .metricInconsistent _ _ => .METRIC_INCONSISTENT
  | .categoryNonstandard _ => .CATEGORY_NONSTANDARD
  | .categoryFormat _ => .CATEGORY_FORMAT
  | .languageUnsupported _ => .LANGUAGE_UNSUPPORTED
  | .retentionTooShort _ => .RETENTION_TOO_SHORT

/-! ## Python regular expressions as acceptors

Each `re.compile(r'^...$').match(value)` of the source becomes a total
acceptor on the character list.  Because every quantified class in these
patterns is `\d+` followed by a non-digit, greedy matching is forced and
each acceptor can consume maximal digit runs.  `pyDollarMatch` adds the
one semantic quirk of Python's `$`: it also matches immediately before a
single trailing newline. -/

/-- Digit run value, e.g. `digitsToNat ['2','0'] = 20`. -/
def digitsToNat (ds : List Char) : Nat :=
  ds.foldl (fun n c => 10 * n + (c.toNat - 48)) 0

/-- Core of `\d+(\.\d+)?%` (the unsigned percentage body). -/
def pctCore (cs : List Char) : Bool :=
  match cs.span Char.isDigit with
  | (ds, rest) =>
    !ds.isEmpty &&
      match rest with
      | ['%'] => true
      | '.' :: r2 =>
        (match r2.span Char.isDigit with
         | (ds2, r3) => !ds2.isEmpty && r3 == ['%'])
      | _ => false

/-- An optional leading `[+-]?`. -/
def dropSign : List Char → List Char
  | '+' :: r => r
  | '-' :: r => r
  | cs => cs

/-- Core of `[+-]?\d+(\.\d+)?%` (metric percentage pattern). -/
def signedPctCore (cs : List Char) : Bool :=
  pctCore (dropSign cs)

/-- Core of `[+-]?\d+(\.\d+)?` (metric numeric pattern). -/
def numCore (cs : List Char) : Bool :=
  match (dropSign cs).span Char.isDigit with
  | (ds, rest) =>
    !ds.isEmpty &&
      match rest with
      | [] => true
      | '.' :: r2 =>
        (match r2.span Char.isDigit with
         | (ds2, r3) => !ds2.isEmpty && r3.isEmpty)
      | _ => false

/-- Core of `\d+:\d+` (metric ratio pattern). -/
def ratioCore (cs : List Char) : Bool :=
  match cs.span Char.isDigit with
  | (ds, rest) =>
    !ds.isEmpty &&
      match rest with
      | ':' :: r2 =>
        (match r2.span Char.isDigit with
         | (ds2, r3) => !ds2.isEmpty && r3.isEmpty)
      | _ => false

/-- The alternation `(ms|s|min|h)` as a whole-remainder test. -/
def durationUnit (cs : List Char) : Bool :=
  cs == ['m', 's'] || cs == ['s'] || cs == ['m', 'i', 'n'] || cs == ['h']

/-- Core of `\d+(\.\d+)?(ms|s|min|h)` (metric duration pattern). -/
def durationCore (cs : List Char) : Bool :=
  match cs.span Char.isDigit with
  | (ds, rest) =>
    !ds.isEmpty &&
      (durationUnit rest ||
        match rest with
        | '.' :: r2 =>
          (match r2.span Char.isDigit with
           | (ds2, r3) => !ds2.isEmpty && durationUnit r3)
        | _ => false)

/-- Core of `(true|false)` under `re.I`. -/
def boolCore (cs : List Char) : Bool :=
  let ls := cs.map Char.toLower
  ls == ['t', 'r', 'u', 'e'] || ls == ['f', 'a', 'l', 's', 'e']

/-- Core of `[A-Z][a-zA-Z0-9 ]+` (category name pattern). -/
def catFormatCore : List Char → Bool
  | c :: rest => c.isUpper && !rest.isEmpty && rest.all fun x => x.isAlpha || x.isDigit || x == ' '
  | [] => false

/-- `re.match` of an `^core$` pattern: the whole string matches `core`,
or everything before one trailing newline does (Python's `$`). -/
def pyDollarMatch (core : List Char → Bool) (s : String) : Bool :=
  let cs := s.toList
  core cs || (cs.getLast? == some '\n' && core cs.dropLast)

/-! ## The metric rule (`_validate_metrics`, `_get_metric_format_type`) -/

/-- The keys of the source's `metric_patterns` dict, plus the
`'unknown'` sentinel returned when no pattern matches.  `ratioK` stands
for the source's `'ratio'` key. -/
inductive MetricKind where
  | percentage
  | numeric
  | ratioK
  | duration
  | boolean
  | unknown
  deriving DecidableEq

/-- `any(pattern.match(value) for pattern in metric_patterns.values())`. -/
def metric_pattern_match (value : String) : Bool :=
  pyDollarMatch signedPctCore value || pyDollarMatch numCore value ||
    pyDollarMatch ratioCore value || pyDollarMatch durationCore value ||
    pyDollarMatch boolCore value

/-- `_get_metric_format_type`: first matching pattern in the dict's
insertion order, else `'unknown'`. -/
def get_metric_format_type (value : String) : MetricKind :=
  if pyDollarMatch signedPctCore value then .percentage
  else if pyDollarMatch numCore value then .numeric
  else if pyDollarMatch ratioCore value then .ratioK
  else if pyDollarMatch durationCore value then .duration
  else if pyDollarMatch boolCore value then .boolean
  else .unknown

/-- `name in seen_metrics` plus the read of the stored singleton, on the
association-list rendering of the `seen_metrics` dict. -/
def kindLookup : List (String × MetricKind) → String → Option MetricKind
  | [], _ => none
  | (m, t) :: rest, n => if m = n then some t else kindLookup rest n

/-- The loop of `_validate_metrics` over the metric elements, with the
`seen_metrics` accumulator.  The source stores a singleton set
`{format_type}` per name and never adds to it, so the accumulator is an
association list from name to the format type recorded at the name's
first occurrence. -/
def validate_metrics_aux :
    List (String × String) → List (String × MetricKind) → List ValidationError
  | [], _ => []
  | (name, value) :: rest, seen =>
    let fmtErr : List ValidationError :=
      if metric_pattern_match value then [] else [.metricFormat name value]
    match kindLookup seen name with
    | some t =>
      fmtErr ++
        (if get_metric_format_type value ≠ t then [.metricInconsistent name value] else []) ++
        validate_metrics_aux rest seen
    | none =>
      fmtErr ++ validate_metrics_aux rest ((name, get_metric_format_type value) :: seen)

/-- `_validate_metrics`. -/
def validate_metrics (d : FeedDocument) : List ValidationError :=
  validate_metrics_aux (metricsOf d) []

example : get_metric_format_type "10.5%" = .percentage := by decide
example : get_metric_format_type "200ms" = .duration := by decide
example : get_metric_format_type "200" = .numeric := by decide
example : get_metric_format_type "1.5x" = .unknown := by decide
example : get_metric_format_type "3:1" = .ratioK := by decide
example : get_metric_format_type "TrUe" = .boolean := by decide
example : get_metric_format_type "+42" = .numeric := by decide
example : get_metric_format_type "10.5%\n" = .percentage := by decide
example : get_metric_format_type "-10%" = .percentage := by decide
example : get_metric_format_type "10.5%%" = .unknown := by decide

/-! ## Dates (`_validate_dates`, and the parsing shared with retention)

`datetime.strptime(text, "%Y-%m-%dT%H:%M:%SZ")` compiles the format to a
case-insensitive regex: `%Y` is exactly four digits, while `%m`, `%d`,
`%H`, `%M`, `%S` accept one- or two-digit runs within their ranges, and
the literals `T`/`Z` match either case.  A match must consume the whole
string.  The `datetime` constructor then rejects year 0, leap seconds
(60/61, which the `%S` regex admits), and days beyond the month's length;
all such rejections surface as the same `ValueError` the caller catches.
`parsePyDate` is that composite acceptance. -/

structure PyDateTime where
  year : Nat
  month : Nat
  day : Nat
  hour : Nat
  minute : Nat
  second : Nat
  deriving DecidableEq

def isLeapYear (y : Nat) : Bool :=
  y % 4 == 0 && (y % 100 != 0 || y % 400 == 0)

def daysInMonth (y m : Nat) : Nat :=
  if m == 2 then (if isLeapYear y then 29 else 28)
  else if m == 4 || m == 6 || m == 9 || m == 11 then 30
  else 31

/-- Days since 1970-01-01 in the proleptic Gregorian calendar (the
ordinal arithmetic behind `datetime` subtraction), for years ≥ 1. -/
def daysFromCivil (y m d : Nat) : Int :=
  let yAdj : Nat := if m ≤ 2 then y - 1 else y
  let era : Nat := yAdj / 400
  let yoe : Nat := yAdj % 400
  let mp : Nat := if m > 2 then m - 3 else m + 9
  let doy : Nat := (153 * mp + 2) / 5 + d - 1
  let doe : Nat := yoe * 365 + yoe / 4 - yoe / 100 + doy
  ((era * 146097 + doe : Nat) : Int) - 719468

/-- Seconds since the 1970 epoch; `datetime` comparison and subtraction
act through this value for calendar-valid instants. -/
def PyDateTime.toSec (t : PyDateTime) : Int :=
  daysFromCivil t.year t.month t.day * 86400 +
    (t.hour : Int) * 3600 + (t.minute : Int) * 60 + (t.second : Int)

/-- One strptime numeric field: a run of one or two digits whose value
lies in `[lo, hi]`, returning the value and the unconsumed remainder. -/
def parse1or2 (cs : List Char) (lo hi : Nat) : Option (Nat × List Char) :=
  match cs.span Char.isDigit with
  | (ds, rest) =>
    if (ds.length = 1 ∨ ds.length = 2) ∧ lo ≤ digitsToNat ds ∧ digitsToNat ds ≤ hi then
      some (digitsToNat ds, rest)
    else none

/-- `datetime.strptime(s, "%Y-%m-%dT%H:%M:%SZ")`, `None` standing for the
`ValueError` the source catches.  The second field's upper bound is 59
because the constructor rejects the leap seconds the regex admits. -/
def parsePyDate (s : String) : Option PyDateTime :=
  match s.toList with
  | y1 :: y2 :: y3 :: y4 :: '-' :: rest =>
    if y1.isDigit ∧ y2.isDigit ∧ y3.isDigit ∧ y4.isDigit then
      let y := digitsToNat [y1, y2, y3, y4]
      match parse1or2 rest 1 12 with
      | some (mo, r1) =>
        match r1 with
        | '-' :: r2 =>
          match parse1or2 r2 1 31 with
          | some (dy, r3) =>
            match r3 with
            | t :: r4 =>
              if t = 'T' ∨ t = 't' then
                match parse1or2 r4 0 23 with
                | some (hh, r5) =>
                  match r5 with
                  | ':' :: r6 =>
                    match parse1or2 r6 0 59 with
                    | some (mi, r7) =>
                      match r7 with
                      | ':' :: r8 =>
                        match parse1or2 r8 0 59 with
                        | some (ss, r9) =>
                          match r9 with
                          | [z] =>
                            if (z = 'Z' ∨ z = 'z') ∧ 1 ≤ y ∧ dy ≤ daysInMonth y mo then
                              some ⟨y, mo, dy, hh, mi, ss⟩
                            else none
                          | _ => none
                        | none => none
                      | _ => none
                    | none => none
                  | _ => none
                | none => none
              else none
            | [] => none
          | none => none
        | _ => none
      | none => none
    else none
  | _ => none

/-- The shared body of both date checks: parse, then compare with `now`
(`parsed > current_date` is the future test); a parse failure is the
format error. -/
def checkDateField (field value : String) (now : PyDateTime) : List ValidationError :=
  match parsePyDate value with
  | some dt => if now.toSec < dt.toSec then [.dateFuture field value] else []
  | none => [.dateFormat field value]

/-- `_validate_dates`: the optional `lastBuildDate`, then every
`pubDate` in document order. -/
def validate_dates (d : FeedDocument) (now : PyDateTime) : List ValidationError :=
  (match d.lastBuildDate with
   | some s => checkDateField "lastBuildDate" s now
   | none => []) ++
    List.flatten ((pubDatesOf d).map fun s => checkDateField "pubDate" s now)

/-! ## Retention (`_validate_retention`) -/

def MIN_RETENTION_DAYS : Nat := 365

/-- The `pub_dates` list the retention rule collects: every `pubDate`
that `strptime` accepts, unparsable ones skipped by the inner
`try/except`. -/
def parsedPubDates (d : FeedDocument) : List PyDateTime :=
  (pubDatesOf d).filterMap parsePyDate

/-- `(current_date - oldest_date).days`: `timedelta` normalisation floors
the day count. -/
def pyDaysBetween (now old : PyDateTime) : Int :=
  Int.fdiv (now.toSec - old.toSec) 86400

/-- `_validate_retention`: with at least one parsable `pubDate`, compare
the age of the oldest against the minimum. -/
def validate_retention (d : FeedDocument) (now : PyDateTime) : List ValidationError :=
  match parsedPubDates d with
  | [] => []
  | p :: ps =>
    let oldestSec : Int := (ps.map PyDateTime.toSec).foldl min p.toSec
    let days : Int := Int.fdiv (now.toSec - oldestSec) 86400
    if days < (MIN_RETENTION_DAYS : Int) then [.retentionTooShort days] else []

/-! ## Percentages, categories, language (`_validate_percentages`,
`_validate_categories`, `_validate_language`) -/

def validate_percentages (d : FeedDocument) : List ValidationError :=
  List.flatten ((affectedOf d).map fun a =>
    if pyDollarMatch pctCore a then [] else [.pctAffected a]) ++
    List.flatten ((metricsOf d).map fun m =>
      if m.2.toList.contains '%' && !pyDollarMatch pctCore m.2 then [.pctMetric m.2] else [])

def STANDARD_CATEGORIES : List String :=
  ["Ranking Algorithm", "Content Moderation", "Recommendation System",
   "User Classification", "Privacy Enhancement", "Bias Mitigation",
   "Machine Learning", "Data Processing", "Security", "Performance"]

/-- `_validate_categories`: per category element, `strip` the text, then
the vocabulary check and the format check in that order (`String.trim`
stands for Python's `str.strip`). -/
def validate_categories (d : FeedDocument) : List ValidationError :=
  List.flatten ((categoriesOf d).map fun c =>
    let cn := c.trim
    (if STANDARD_CATEGORIES.contains cn then [] else [.categoryNonstandard cn]) ++
      (if pyDollarMatch catFormatCore cn then [] else [.categoryFormat cn]))

def ALLOWED_LANGUAGES : List String :=
  ["en-us", "en-gb", "es", "fr", "de", "zh"]

/-- `_validate_language`: only the first `language` element, if any. -/
def validate_language (d : FeedDocument) : List ValidationError :=
  match d.language with
  | none => []
  | some l => if ALLOWED_LANGUAGES.contains l then [] else [.languageUnsupported l]

/-! ## URIs (`_validate_uris`)

`urllib.parse.urlparse` first removes every tab, carriage return and
newline from the string, splits the scheme at `:`, and — when the
remainder starts `//` — takes the network location up to the next `/`,
`?` or `#`; mismatched square brackets in that component raise the
`ValueError` the source's `except` turns into a parsing-error finding. -/

/-- `url.startswith(prefixString)`, computed on character lists. -/
def charPrefixTest : List Char → List Char → Bool
  | [], _ => true
  | _ :: _, [] => false
  | p :: ps, c :: cs => p == c && charPrefixTest ps cs

def httpTest (url : String) : Bool :=
  charPrefixTest "http://".toList url.toList

def httpsTest (url : String) : Bool :=
  charPrefixTest "https://".toList url.toList

def stripUnsafeUrl (cs : List Char) : List Char :=
  cs.filter fun c => !(c == '\t' || c == '\r' || c == '\n')

/-- `urlparse(url).netloc` for a string that passed the literal
`http://`/`https://` prefix test. -/
def netlocOf (url : String) : List Char :=
  let stripped := stripUnsafeUrl url.toList
  let rest := if httpsTest url then stripped.drop 8 else stripped.drop 7
  rest.takeWhile fun c => !(c == '/' || c == '?' || c == '#')

/-- The mismatched-bracket test with which `urlsplit` raises
`ValueError("Invalid IPv6 URL")`. -/
def bracketMismatch (nl : List Char) : Bool :=
  (nl.contains '[' && !nl.contains ']') || (nl.contains ']' && !nl.contains '[')

/-- The body of the `_validate_uris` loop for one link. -/
def checkLink (url : String) : List ValidationError :=
  if !(httpTest url || httpsTest url) then [.uriScheme url]
  else
    let nl := netlocOf url
    if bracketMismatch nl then
      [.uriParseFail url]
    else
      (if nl.isEmpty then [.uriFormat url] else []) ++
        (if url.toList.contains ' ' then [.uriSpaces url] else []) ++
        (if !nl.contains '.' then [.uriDomain url] else [])

def validate_uris (d : FeedDocument) : List ValidationError :=
  List.flatten ((docLinks d).map checkLink)

/-! ## The pipeline (`validate_file`) -/

def MAX_FEED_SIZE : Nat := 10 * 1024 * 1024

/-- `validate_file`, over the externally supplied facts: the byte size of
the buffer, the lxml parse outcome (`none` is a raised parse error), and
the XSD engine's error log for the parsed tree.  The rule calls are the
source's seven sequential `errors.extend(...)` lines. -/
def validate_file (size : Nat) (parsed : Option FeedDocument)
    (schemaLog : List String) (now : PyDateTime) : List ValidationError :=
  if size > MAX_FEED_SIZE then [.sizeExceeded]
  else
    match parsed with
    | none => [.parseError]
    | some doc =>
      [validate_dates doc now, validate_uris doc, validate_percentages doc,
          validate_metrics doc, validate_categories doc, validate_language doc,
          validate_retention doc now].foldl
        (fun acc es => acc ++ es) (schemaLog.map ValidationError.schemaErr)

example : parsePyDate "2020-01-02T03:04:05Z" = some ⟨2020, 1, 2, 3, 4, 5⟩ := by decide
example : parsePyDate "2020-1-2T3:4:5z" = some ⟨2020, 1, 2, 3, 4, 5⟩ := by decide
example : parsePyDate "2020-13-02T03:04:05Z" = none := by decide
example : parsePyDate "2021-02-29T00:00:00Z" = none := by decide
example : parsePyDate "2020-02-29T00:00:00Z" = some ⟨2020, 2, 29, 0, 0, 0⟩ := by decide
example : parsePyDate "2020-01-02T03:04:60Z" = none := by decide
example : parsePyDate "0000-01-02T03:04:05Z" = none := by decide
example : parsePyDate "2020-01-02T03:04:05Z " = none := by decide
example : parsePyDate "2020-01-02 03:04:05Z" = none := by decide
example : pyDaysBetween ⟨2026, 1, 1, 0, 0, 0⟩ ⟨2025, 12, 2, 0, 0, 0⟩ = 30 := by decide
example : pyDaysBetween ⟨2026, 1, 1, 0, 0, 0⟩ ⟨2024, 11, 1, 0, 0, 0⟩ = 426 := by decide
example : checkLink "http://ex.com/a\tb" = [] := by decide
example : checkLink "ftp://ex.com" = [.uriScheme "ftp://ex.com"] := by decide
example : checkLink "http://excom/a" = [.uriDomain "http://excom/a"] := by decide
example : checkLink "http:///pp" = [.uriFormat "http:///pp", .uriDomain "http:///pp"] := by decide
example : checkLink "http://ex.com/a b" = [.uriSpaces "http://ex.com/a b"] := by decide
example : checkLink "http://[a.b/c" = [.uriParseFail "http://[a.b/c"] := by decide

/-! ## The Feed Differ (`FeedManager.compare_feeds`, `_extract_items`,
`_diff_items`)

`_extract_items` builds a Python dict keyed by the item's link; a
repeated link overwrites the stored value but keeps the key's insertion
position, which `dictInsert` reproduces on an association list.
`_diff_items` walks the fields in the dict's insertion order (title,
description, pubDate) and records old and new values for each changed
field; the line-oriented `difflib.ndiff` component of each change record
is derived data computed by the standard library from those two values
and is elided here. -/

/-- The per-item dict `{"title", "description", "pubDate"}`. -/
structure MItem where
  title : String
  description : String
  pubDate : String
  deriving DecidableEq

/-- Python dict insertion: overwrite in place or append. -/
def dictInsert : List (String × MItem) → String → MItem → List (String × MItem)
  | [], k, v => [(k, v)]
  | (k', v') :: rest, k, v =>
    if k' = k then (k', v) :: rest else (k', v') :: dictInsert rest k v

/-- Python dict lookup. -/
def dictFind : List (String × MItem) → String → Option MItem
  | [], _ => none
  | (k', v') :: rest, k => if k' = k then some v' else dictFind rest k

/-- `_extract_items`: fold the items into a dict keyed by link. -/
def extract_items (d : FeedDocument) : List (String × MItem) :=
  d.items.foldl (fun m it => dictInsert m it.link ⟨it.title, it.description, it.pubDate⟩) []

/-- `_diff_items`: changed fields in dict order, with old and new value. -/
def diff_items (a b : MItem) : List (String × String × String) :=
  (if a.title ≠ b.title then [("title", a.title, b.title)] else []) ++
    (if a.description ≠ b.description then [("description", a.description, b.description)] else []) ++
    (if a.pubDate ≠ b.pubDate then [("pubDate", a.pubDate, b.pubDate)] else [])

/-- The result dataclass of `compare_feeds`. -/
structure FeedDiff where
  added_items : List String
  removed_items : List String
  modified_items : List (String × List (String × String × String))
  deriving DecidableEq

/-- `compare_feeds` on two parsed documents: one pass over the second
feed's dict collects additions and modifications, one pass over the
first collects removals. -/
def compare_feeds (d1 d2 : FeedDocument) : FeedDiff :=
  let items1 := extract_items d1
  let items2 := extract_items d2
  let added := items2.filterMap fun kv =>
    if dictFind items1 kv.1 = none then some kv.2.title else none
  let modified := items2.filterMap fun kv =>
    match dictFind items1 kv.1 with
    | some v1 => if v1 ≠ kv.2 then some (kv.2.title, diff_items v1 kv.2) else none
    | none => none
  let removed := items1.filterMap fun kv =>
    if dictFind items2 kv.1 = none then some kv.2.title else none
  ⟨added, removed, modified⟩

/-! ## The Checksum Helper (`FeedManager._calculate_checksum`)

The source streams the file through `hashlib.sha256()` in 4096-byte
reads.  SHA-256 itself (FIPS 180-4) is implemented below over `List Nat`
bytes; the `hashlib` object is modelled by its documented semantics —
`m.update(a); m.update(b)` is equivalent to `m.update(a + b)`, so the
object's state is the concatenation of the bytes fed so far and the
digest is the hash of that concatenation. -/

/-- Truncation to a 32-bit word. -/
def w32 (x : Nat) : Nat := x % 4294967296

/-- Right rotation of a 32-bit word. -/
def rotr (n x : Nat) : Nat :=
  w32 (x / 2 ^ n + x % 2 ^ n * 2 ^ (32 - n))

/-- Bitwise complement of a 32-bit word. -/
def bnot32 (x : Nat) : Nat := 4294967295 - w32 x

def ch32 (x y z : Nat) : Nat := (x &&& y) ^^^ (bnot32 x &&& z)

def maj32 (x y z : Nat) : Nat := (x &&& y) ^^^ (x &&& z) ^^^ (y &&& z)

def bsig0 (x : Nat) : Nat := rotr 2 x ^^^ rotr 13 x ^^^ rotr 22 x

def bsig1 (x : Nat) : Nat := rotr 6 x ^^^ rotr 11 x ^^^ rotr 25 x

def ssig0 (x : Nat) : Nat := rotr 7 x ^^^ rotr 18 x ^^^ x / 2 ^ 3

def ssig1 (x : Nat) : Nat := rotr 17 x ^^^ rotr 19 x ^^^ x / 2 ^ 10

/-- The 64 SHA-256 round constants of FIPS 180-4, in decimal. -/
def sha256K : List Nat :=
  [1116352408, 1899447441, 3049323471, 3921009573, 961987163,
   1508970993, 2453635748, 2870763221, 3624381080, 310598401,
   607225278, 1426881987, 1925078388, 2162078206, 2614888103,
   3248222580, 3835390401, 4022224774, 264347078, 604807628,
   770255983, 1249150122, 1555081692, 1996064986, 2554220882,
   2821834349, 2952996808, 3210313671, 3336571891, 3584528711,
   113926993, 338241895, 666307205, 773529912, 1294757372,
   1396182291, 1695183700, 1986661051, 2177026350, 2456956037,
   2730485921, 2820302411, 3259730800, 3345764771, 3516065817,
   3600352804, 4094571909, 275423344, 430227734, 506948616,
   659060556, 883997877, 958139571, 1322822218, 1537002063,
   1747873779, 1955562222, 2024104815, 2227730452, 2361852424,
   2428436474, 2756734187, 3204031479, 3329325298]

/-- The eight initial hash words of FIPS 180-4, in decimal. -/
def sha256H0 : List Nat :=
  [1779033703, 3144134277, 1013904242, 2773480762,
   1359893119, 2600822924, 528734635, 1541459225]

/-- Big-endian packing of bytes into 32-bit words, four at a time. -/
def bytesToWords : List Nat → List Nat
  | b0 :: b1 :: b2 :: b3 :: rest =>
    (b0 % 256 * 16777216 + b1 % 256 * 65536 + b2 % 256 * 256 + b3 % 256) :: bytesToWords rest
  | _ => []

/-- Message-schedule extension: append `n` more words. -/
def scheduleExtend : Nat → List Nat → List Nat
  | 0, ws => ws
  | n + 1, ws =>
    let l := ws.length
    let next := w32 (ssig1 (ws.getD (l - 2) 0) + ws.getD (l - 7) 0 +
      ssig0 (ws.getD (l - 15) 0) + ws.getD (l - 16) 0)
    scheduleExtend n (ws ++ [next])

/-- The 64 compression rounds over the zipped (constant, schedule word)
list, on the working variables `[a, b, c, d, e, f, g, h]`. -/
def sha256Rounds : List (Nat × Nat) → List Nat → List Nat
  | [], st => st
  | (k, w) :: rest, [a, b, c, d, e, f, g, h] =>
    let t1 := w32 (h + bsig1 e + ch32 e f g + k + w)
    let t2 := w32 (bsig0 a + maj32 a b c)
    sha256Rounds rest [w32 (t1 + t2), a, b, c, w32 (d + t1), e, f, g]
  | _ :: _, st => st

/-- One 512-bit block: schedule, rounds, and the feed-forward addition. -/
def sha256Compress (hs : List Nat) (block : List Nat) : List Nat :=
  let ws := scheduleExtend 48 (bytesToWords block)
  let st := sha256Rounds (sha256K.zip ws) hs
  List.zipWith (fun x y => w32 (x + y)) hs st

/-- Merkle–Damgård padding: `0x80`, zeros to 56 mod 64, then the bit
length as eight big-endian bytes. -/
def sha256Pad (msg : List Nat) : List Nat :=
  let l := msg.length
  let zeros := (119 - l % 64) % 64
  let lenBytes := (List.range 8).map fun i => 8 * l / 2 ^ (8 * (7 - i)) % 256
  msg ++ 128 :: List.replicate zeros 0 ++ lenBytes

/-- The padded message cut into 64-byte blocks. -/
def blocks64 (l : List Nat) : List (List Nat) :=
  if h : l = [] then [] else l.take 64 :: blocks64 (l.drop 64)
  termination_by l.length
  decreasing_by
    simp only [List.length_drop]
    have := List.length_pos.mpr h
    omega

/-- A 32-bit word as four big-endian bytes. -/
def wordToBytes (w : Nat) : List Nat :=
  [w / 16777216 % 256, w / 65536 % 256, w / 256 % 256, w % 256]

/-- SHA-256 of a byte list, as 32 digest bytes. -/
def sha256 (msg : List Nat) : List Nat :=
  List.flatten ((((blocks64 (sha256Pad msg)).foldl sha256Compress sha256H0)).map wordToBytes)

def hexDigitChar (n : Nat) : Char :=
  if n < 10 then Char.ofNat (48 + n) else Char.ofNat (87 + n)

/-- Lowercase hex encoding, as `hexdigest` produces. -/
def bytesToHex (bs : List Nat) : String :=
  String.mk (List.flatten (bs.map fun b => [hexDigitChar (b % 256 / 16), hexDigitChar (b % 16)]))

/-- The `hashlib.sha256()` object, by its documented semantics: the
bytes fed so far. -/
structure Sha256Ctx where
  fed : List Nat
  deriving DecidableEq

/-- `sha256.update(block)`: feeding `a` then `b` equals feeding
`a + b`. -/
def Sha256Ctx.update (c : Sha256Ctx) (block : List Nat) : Sha256Ctx :=
  ⟨c.fed ++ block⟩

/-- `sha256.hexdigest()`. -/
def Sha256Ctx.hexdigest (c : Sha256Ctx) : String :=
  bytesToHex (sha256 c.fed)

/-- The successive `f.read(4096)` results: 4096-byte chunks of the file,
the last one shorter, until `b""`. -/
def readChunks (l : List Nat) : List (List Nat) :=
  if h : l = [] then [] else l.take 4096 :: readChunks (l.drop 4096)
  termination_by l.length
  decreasing_by
    simp only [List.length_drop]
    have := List.length_pos.mpr h
    omega

/-- `_calculate_checksum` on the file's byte contents: fold `update`
over the chunks, then `hexdigest`. -/
def calculate_checksum (fileBytes : List Nat) : String :=
  ((readChunks fileBytes).foldl Sha256Ctx.update ⟨[]⟩).hexdigest

/-! ## Concrete fixtures used by witnesses and counterexamples -/

/-- A fixed validation instant: 2026-01-01T00:00:00Z. -/
def sampleNow : PyDateTime := ⟨2026, 1, 1, 0, 0, 0⟩

/-- An item with the given publication date and no categories or
metrics. -/
def itemWithDate (s : String) : FeedItem :=
  ⟨"t", "https://e.x/i", s, "d", [], ⟨"10%", []⟩⟩

/-- A single-item document holding the given metric elements. -/
def metricDoc (ms : List (String × String)) : FeedDocument :=
  ⟨"t", "https://e.x/", "d", none, none,
   [⟨"it", "https://e.x/i", "2020-01-02T03:04:05Z", "d", [], ⟨"10%", ms⟩⟩]⟩

/-- A two-item document holding the given metric elements per item. -/
def metricDoc2 (ms1 ms2 : List (String × String)) : FeedDocument :=
  ⟨"t", "https://e.x/", "d", none, none,
   [⟨"i1", "https://e.x/1", "2020-01-02T03:04:05Z", "d", [], ⟨"10%", ms1⟩⟩,
    ⟨"i2", "https://e.x/2", "2020-01-02T03:04:05Z", "d", [], ⟨"10%", ms2⟩⟩]⟩

/-- An itemless document with the given channel fields. -/
def channelDoc (lbd lang : Option String) : FeedDocument :=
  ⟨"t", "https://e.x/", "d", lbd, lang, []⟩

/-! ## Claim theorems -/

/-- C1: `validate` is total over any byte buffer — embedded, `validate_file`
is a total Lean function of the parse outcome — and when the buffer passes
the size guard but parsing fails (malformed markup, truncation, mismatched
tags, bad control characters all surface as the caught exception, i.e.
`parsed = none`), the result is exactly one finding of kind `PARSE_ERROR`. -/
theorem validate_parse_failure_total (size : Nat) (schemaLog : List String)
    (now : PyDateTime) (h : size ≤ MAX_FEED_SIZE) :
    validate_file size none schemaLog now = [ValidationError.parseError] ∧
      ValidationError.parseError.kind = ErrorKind.PARSE_ERROR := by
  refine ⟨?_, rfl⟩
  simp [validate_file, Nat.not_lt.mpr h]

theorem validate_parse_failure_total_witness :
    0 ≤ MAX_FEED_SIZE ∧
      (validate_file 0 none ["schema says no"] sampleNow = [ValidationError.parseError] ∧
        ValidationError.parseError.kind = ErrorKind.PARSE_ERROR) :=
  ⟨by decide, validate_parse_failure_total 0 ["schema says no"] sampleNow (by decide)⟩

/-- C3: a buffer strictly larger than `MAX_FEED_SIZE` yields exactly the
single `SIZE_EXCEEDED` finding, whatever the parse outcome, schema log or
instant — so no parsing, schema check or rule ever influences the result. -/
theorem size_guard_exclusive (size : Nat) (parsed : Option FeedDocument)
    (schemaLog : List String) (now : PyDateTime) (h : size > MAX_FEED_SIZE) :
    validate_file size parsed schemaLog now = [ValidationError.sizeExceeded] ∧
      ValidationError.sizeExceeded.kind = ErrorKind.SIZE_EXCEEDED := by
  refine ⟨?_, rfl⟩
  simp [validate_file, h]

theorem size_guard_exclusive_witness :
    10485761 > MAX_FEED_SIZE ∧
      (validate_file 10485761 (some (metricDoc [("X", "zzz")])) ["schema says no"] sampleNow =
          [ValidationError.sizeExceeded] ∧
        ValidationError.sizeExceeded.kind = ErrorKind.SIZE_EXCEEDED) :=
  ⟨by decide,
    size_guard_exclusive 10485761 (some (metricDoc [("X", "zzz")])) ["schema says no"] sampleNow
      (by decide)⟩

/-- C2: past the size guard, a parsed document's result is the schema log
followed by the outputs of the seven semantic rules, concatenated in call
order — every rule runs (each is a total function evaluated on `doc`) and
no rule's findings displace another's; only the size guard returns early. -/
theorem validate_pipeline_concat (size : Nat) (doc : FeedDocument)
    (schemaLog : List String) (now : PyDateTime) (h : size ≤ MAX_FEED_SIZE) :
    validate_file size (some doc) schemaLog now =
      schemaLog.map ValidationError.schemaErr ++ validate_dates doc now ++
        validate_uris doc ++ validate_percentages doc ++ validate_metrics doc ++
        validate_categories doc ++ validate_language doc ++ validate_retention doc now := by
  simp [validate_file, Nat.not_lt.mpr h]

theorem validate_pipeline_concat_witness :
    0 ≤ MAX_FEED_SIZE ∧
      validate_file 0 (some (channelDoc (some "2020-01-02T03:04:05Z") (some "en-us")))
          ["schema says no"] sampleNow =
        ["schema says no"].map ValidationError.schemaErr ++
          validate_dates (channelDoc (some "2020-01-02T03:04:05Z") (some "en-us")) sampleNow ++
          validate_uris (channelDoc (some "2020-01-02T03:04:05Z") (some "en-us")) ++
          validate_percentages (channelDoc (some "2020-01-02T03:04:05Z") (some "en-us")) ++
          validate_metrics (channelDoc (some "2020-01-02T03:04:05Z") (some "en-us")) ++
          validate_categories (channelDoc (some "2020-01-02T03:04:05Z") (some "en-us")) ++
          validate_language (channelDoc (some "2020-01-02T03:04:05Z") (some "en-us")) ++
          validate_retention (channelDoc (some "2020-01-02T03:04:05Z") (some "en-us")) sampleNow :=
  ⟨by decide,
    validate_pipeline_concat 0 (channelDoc (some "2020-01-02T03:04:05Z") (some "en-us"))
      ["schema says no"] sampleNow (by decide)⟩

/-- C5 counterexample: the claim says the metric value `"200"` is invalid
and yields `METRIC_FORMAT`, but `"200"` matches the `numeric` pattern
`[+-]?\d+(\.\d+)?`, so the metric rule classifies it as `numeric` and
emits nothing for a document carrying it. -/
theorem metric_numeric_counterexample :
    get_metric_format_type "200" = MetricKind.numeric ∧
      metric_pattern_match "200" = true ∧
      validate_metrics (metricDoc [("Duration", "200")]) = [] := by
  decide

/-- C5 amended: `"10.5%"` is a valid percentage and `"200ms"` a valid
duration, as claimed; but `"200"` is a valid `numeric` metric and yields
no `METRIC_FORMAT`, while a value matching none of the five patterns,
such as `"1.5x"`, does yield `METRIC_FORMAT`. -/
theorem metric_classification_values :
    (get_metric_format_type "10.5%" = MetricKind.percentage ∧
        validate_metrics (metricDoc [("P", "10.5%")]) = []) ∧
      (get_metric_format_type "200ms" = MetricKind.duration ∧
        validate_metrics (metricDoc [("D", "200ms")]) = []) ∧
      (get_metric_format_type "200" = MetricKind.numeric ∧
        validate_metrics (metricDoc [("D", "200")]) = []) ∧
      (get_metric_format_type "1.5x" = MetricKind.unknown ∧
        validate_metrics (metricDoc [("D", "1.5x")]) =
          [ValidationError.metricFormat "D" "1.5x"] ∧
        (ValidationError.metricFormat "D" "1.5x").kind = ErrorKind.METRIC_FORMAT) := by
  decide

/-! ### C4: which occurrence fixes a metric's expected kind -/

/-- First value recorded for a name in a metric list. -/
def firstVal (n : String) : List (String × String) → Option String
  | [] => none
  | (m, v) :: rest => if m = n then some v else firstVal n rest

/-- The expectation the loop holds for name `n` after starting from
`seen` and having traversed `pre`: the stored kind if `n` is a key of
`seen`, else the kind of `n`'s first occurrence in `pre`. -/
def expAux (seen : List (String × MetricKind)) (pre : List (String × String))
    (n : String) : Option MetricKind :=
  match kindLookup seen n with
  | some t => some t
  | none => (firstVal n pre).map get_metric_format_type

/-- Stepping the traversal by one element updates the accumulator the
way `expAux` predicts. -/
theorem expAux_cons (seen : List (String × MetricKind)) (m w : String)
    (pre : List (String × String)) (n : String) :
    expAux seen ((m, w) :: pre) n =
      expAux
        (match kindLookup seen m with
         | some _ => seen
         | none => (m, get_metric_format_type w) :: seen) pre n := by
  by_cases hmn : m = n
  · subst hmn
    cases h : kindLookup seen m with
    | some t => simp [expAux, h, firstVal]
    | none => simp [expAux, h, firstVal, kindLookup]
  · cases h : kindLookup seen m with
    | some t => simp [expAux, h, firstVal, hmn]
    | none => simp [expAux, h, firstVal, kindLookup, hmn]

/-- Splitting a cons as an append around a distinguished element. -/
theorem cons_eq_append_cons {α : Type} (a x : α) (l pre post : List α) :
    a :: l = pre ++ x :: post ↔
      (pre = [] ∧ a = x ∧ l = post) ∨
        ∃ pre2, pre = a :: pre2 ∧ l = pre2 ++ x :: post := by
  constructor
  · intro h
    cases pre with
    | nil =>
      simp only [List.nil_append] at h
      injection h with h1 h2
      exact Or.inl ⟨rfl, h1, h2⟩
    | cons p ps =>
      simp only [List.cons_append] at h
      injection h with h1 h2
      exact Or.inr ⟨ps, by rw [h1], h2⟩
  · rintro (⟨rfl, rfl, rfl⟩ | ⟨pre2, rfl, rfl⟩) <;> simp

/-- Where the loop emits an inconsistency finding, relative to an
arbitrary starting accumulator. -/
theorem mem_inconsistent_aux (ms : List (String × String)) :
    ∀ (seen : List (String × MetricKind)) (n v : String),
      ValidationError.metricInconsistent n v ∈ validate_metrics_aux ms seen ↔
        ∃ pre post t, ms = pre ++ (n, v) :: post ∧ expAux seen pre n = some t ∧
          get_metric_format_type v ≠ t := by
  induction ms with
  | nil =>
    intro seen n v
    simp [validate_metrics_aux]
  | cons hd rest ih =>
    obtain ⟨m, w⟩ := hd
    intro seen n v
    cases h : kindLookup seen m with
    | some t0 =>
      simp only [validate_metrics_aux, h, List.mem_append]
      constructor
      · rintro ((hf | hmid) | hrest)
        · by_cases hp : metric_pattern_match w <;> simp [hp] at hf
        · rcases Decidable.em (get_metric_format_type w ≠ t0) with hc | hc
          · rw [if_pos hc, List.mem_singleton] at hmid
            injection hmid with h1 h2
            subst h1
            subst h2
            exact ⟨[], rest, t0, rfl, by simp [expAux, h], hc⟩
          · rw [if_neg hc] at hmid
            exact absurd hmid (List.not_mem_nil _)
        · obtain ⟨pre, post, t, hsplit, hexp, hne⟩ := (ih seen n v).mp hrest
          exact ⟨(m, w) :: pre, post, t, by simp [hsplit],
            by rw [expAux_cons, h]; exact hexp, hne⟩
      · rintro ⟨pre, post, t, hsplit, hexp, hne⟩
        rcases (cons_eq_append_cons (m, w) (n, v) rest pre post).mp hsplit with
          ⟨rfl, heq, rfl⟩ | ⟨pre2, rfl, hrest⟩
        · injection heq with h1 h2
          subst h1
          subst h2
          have h2 : expAux seen [] m = some t0 := by simp [expAux, h]
          rw [hexp] at h2
          have ht : t = t0 := Option.some.inj h2
          subst ht
          exact Or.inl (Or.inr (by simp [hne]))
        · refine Or.inr ((ih seen n v).mpr ⟨pre2, post, t, hrest, ?_, hne⟩)
          have hcons := expAux_cons seen m w pre2 n
          rw [h] at hcons
          rw [← hcons]
          exact hexp
    | none =>
      simp only [validate_metrics_aux, h, List.mem_append]
      constructor
      · rintro (hf | hrest)
        · by_cases hp : metric_pattern_match w <;> simp [hp] at hf
        · obtain ⟨pre, post, t, hsplit, hexp, hne⟩ :=
            (ih ((m, get_metric_format_type w) :: seen) n v).mp hrest
          exact ⟨(m, w) :: pre, post, t, by simp [hsplit],
            by rw [expAux_cons, h]; exact hexp, hne⟩
      · rintro ⟨pre, post, t, hsplit, hexp, hne⟩
        rcases (cons_eq_append_cons (m, w) (n, v) rest pre post).mp hsplit with
          ⟨rfl, heq, rfl⟩ | ⟨pre2, rfl, hrest⟩
        · injection heq with h1 h2
          subst h1
          subst h2
          simp [expAux, h, firstVal] at hexp
        · refine Or.inr ((ih ((m, get_metric_format_type w) :: seen) n v).mpr
            ⟨pre2, post, t, hrest, ?_, hne⟩)
          have hcons := expAux_cons seen m w pre2 n
          rw [h] at hcons
          rw [← hcons]
          exact hexp

/-- Where the loop emits a format finding: exactly at the occurrences
matching no pattern, independent of the accumulator. -/
theorem mem_format_aux (ms : List (String × String)) :
    ∀ (seen : List (String × MetricKind)) (n v : String),
      ValidationError.metricFormat n v ∈ validate_metrics_aux ms seen ↔
        (n, v) ∈ ms ∧ metric_pattern_match v = false := by
  induction ms with
  | nil =>
    intro seen n v
    simp [validate_metrics_aux]
  | cons hd rest ih =>
    obtain ⟨m, w⟩ := hd
    intro seen n v
    cases h : kindLookup seen m with
    | some t0 =>
      simp only [validate_metrics_aux, h, List.mem_append]
      constructor
      · rintro ((hf | hmid) | hrest)
        · by_cases hp : metric_pattern_match w <;> simp [hp] at hf
          obtain ⟨rfl, rfl⟩ := hf
          exact ⟨List.mem_cons_self _ _, by simpa using hp⟩
        · rcases Decidable.em (get_metric_format_type w ≠ t0) with hc | hc
          · rw [if_pos hc, List.mem_singleton] at hmid
            exact absurd hmid (by simp)
          · rw [if_neg hc] at hmid
            exact absurd hmid (List.not_mem_nil _)
        · obtain ⟨hmem, hmatch⟩ := (ih seen n v).mp hrest
          exact ⟨List.mem_cons_of_mem _ hmem, hmatch⟩
      · rintro ⟨hmem, hmatch⟩
        rcases List.mem_cons.mp hmem with heq | hmem2
        · injection heq with h1 h2
          subst h1
          subst h2
          exact Or.inl (Or.inl (by simp [hmatch]))
        · exact Or.inr ((ih seen n v).mpr ⟨hmem2, hmatch⟩)
    | none =>
      simp only [validate_metrics_aux, h, List.mem_append]
      constructor
      · rintro (hf | hrest)
        · by_cases hp : metric_pattern_match w <;> simp [hp] at hf
          obtain ⟨rfl, rfl⟩ := hf
          exact ⟨List.mem_cons_self _ _, by simpa using hp⟩
        · obtain ⟨hmem, hmatch⟩ := (ih ((m, get_metric_format_type w) :: seen) n v).mp hrest
          exact ⟨List.mem_cons_of_mem _ hmem, hmatch⟩
      · rintro ⟨hmem, hmatch⟩
        rcases List.mem_cons.mp hmem with heq | hmem2
        · injection heq with h1 h2
          subst h1
          subst h2
          exact Or.inl (by simp [hmatch])
        · exact Or.inr ((ih ((m, get_metric_format_type w) :: seen) n v).mpr ⟨hmem2, hmatch⟩)

/-- The consistency verdict as claim C4 words it: the first occurrence
whose kind is not `unknown` fixes the expectation for the name;
occurrences before that fix nothing.  Stated from the claim's words, for
comparison with `validate_metrics`. -/
def specFirstValidInconsistencies :
    List (String × String) → List (String × MetricKind) → List (String × String)
  | [], _ => []
  | (n, v) :: rest, seen =>
    match kindLookup seen n with
    | some t =>
      (if get_metric_format_type v ≠ t then [(n, v)] else []) ++
        specFirstValidInconsistencies rest seen
    | none =>
      if get_metric_format_type v ≠ .unknown then
        specFirstValidInconsistencies rest ((n, get_metric_format_type v) :: seen)
      else specFirstValidInconsistencies rest seen

/-- C4 counterexample: with metric `"X"` occurring first as the invalid
`"???"` (kind `unknown`) and then as `"10%"` (kind `percentage`), the
claim's first-VALID-occurrence rule flags nothing — `"10%"` is the first
valid occurrence — yet the code, which fixes the expectation at the
first occurrence whether valid or not, emits `METRIC_INCONSISTENT` for
`"10%"`. -/
theorem metric_first_seen_counterexample :
    specFirstValidInconsistencies [("X", "???"), ("X", "10%")] [] = [] ∧
      validate_metrics (metricDoc [("X", "???"), ("X", "10%")]) =
        [ValidationError.metricFormat "X" "???",
          ValidationError.metricInconsistent "X" "10%"] := by
  decide

/-- C4 amended: folding over metric occurrences in document order, the
kind of the FIRST occurrence of each name — valid or not, an invalid
occurrence contributing the kind `unknown` — fixes the expected kind;
a later occurrence is flagged `METRIC_INCONSISTENT` exactly when its
kind differs from that expectation.  `METRIC_FORMAT` is characterised
independently (it fires exactly at occurrences matching no pattern), and
the claim's own example — `"X"` as `"10%"` then as `"5"` in a different
item — is still flagged. -/
theorem metric_inconsistency_first_seen :
    (∀ (d : FeedDocument) (n v : String),
        ValidationError.metricInconsistent n v ∈ validate_metrics d ↔
          ∃ pre post t, metricsOf d = pre ++ (n, v) :: post ∧
            (firstVal n pre).map get_metric_format_type = some t ∧
            get_metric_format_type v ≠ t) ∧
      (∀ (d : FeedDocument) (n v : String),
        ValidationError.metricFormat n v ∈ validate_metrics d ↔
          (n, v) ∈ metricsOf d ∧ metric_pattern_match v = false) ∧
      ValidationError.metricInconsistent "X" "5" ∈
        validate_metrics (metricDoc2 [("X", "10%")] [("X", "5")]) := by
  refine ⟨?_, ?_, by decide⟩
  · intro d n v
    have h := mem_inconsistent_aux (metricsOf d) [] n v
    simpa [validate_metrics, expAux, kindLookup] using h
  · intro d n v
    exact mem_format_aux (metricsOf d) [] n v

/-! ### C9: the differ is pure and diffing a document with itself is empty -/

/-- The keys of an item dict, in order. -/
def dictKeys (m : List (String × MItem)) : List String :=
  m.map Prod.fst

theorem dictKeys_insert (m : List (String × MItem)) (k : String) (v : MItem) :
    dictKeys (dictInsert m k v) =
      if k ∈ dictKeys m then dictKeys m else dictKeys m ++ [k] := by
  induction m with
  | nil => simp [dictInsert, dictKeys]
  | cons hd rest ih =>
    obtain ⟨k2, v2⟩ := hd
    by_cases hk : k2 = k
    · subst hk
      simp [dictInsert, dictKeys]
    · simp only [dictInsert, if_neg hk, dictKeys, List.map_cons] at *
      rw [ih]
      by_cases hmem : k ∈ List.map Prod.fst rest
      · simp [hmem, Ne.symm hk]
      · simp [hmem, Ne.symm hk]

theorem nodup_dictInsert {m : List (String × MItem)} {k : String} {v : MItem}
    (h : (dictKeys m).Nodup) : (dictKeys (dictInsert m k v)).Nodup := by
  rw [dictKeys_insert]
  by_cases hmem : k ∈ dictKeys m
  · simpa [hmem] using h
  · simp [hmem, List.nodup_append, h]

/-- The dict `_extract_items` builds always has pairwise distinct keys. -/
theorem nodup_extract (d : FeedDocument) : (dictKeys (extract_items d)).Nodup := by
  have H : ∀ (its : List FeedItem) (m : List (String × MItem)), (dictKeys m).Nodup →
      (dictKeys (its.foldl
        (fun m it => dictInsert m it.link ⟨it.title, it.description, it.pubDate⟩) m)).Nodup := by
    intro its
    induction its with
    | nil => intro m h; simpa using h
    | cons it rest ih =>
      intro m h
      exact ih _ (nodup_dictInsert h)
  simpa [extract_items] using H d.items [] (by simp [dictKeys])

/-- On a distinct-key dict, lookup of a member returns its stored value. -/
theorem dictFind_mem {m : List (String × MItem)} (h : (dictKeys m).Nodup)
    {k : String} {v : MItem} (hmem : (k, v) ∈ m) : dictFind m k = some v := by
  induction m with
  | nil => simp at hmem
  | cons hd rest ih =>
    obtain ⟨k2, v2⟩ := hd
    have hnd : (k2 :: List.map Prod.fst rest).Nodup := by simpa [dictKeys] using h
    rcases List.mem_cons.mp hmem with heq | hmem2
    · injection heq with h1 h2
      subst h1
      subst h2
      simp [dictFind]
    · have hk2 : ¬ k2 = k := by
        intro hkk
        subst hkk
        exact (List.nodup_cons.mp hnd).1 (List.mem_map.mpr ⟨(k2, v), hmem2, rfl⟩)
      rw [dictFind, if_neg hk2]
      exact ih (by simpa [dictKeys] using (List.nodup_cons.mp hnd).2) hmem2

/-- C9: `compare_feeds` is a pure function of its two parsed inputs —
embedded, it is a Lean function, so equal inputs give equal outputs —
and diffing any document against itself reports nothing added, nothing
removed and nothing modified. -/
theorem diff_self_empty :
    (∀ a b : FeedDocument, compare_feeds a b = compare_feeds a b) ∧
      ∀ d : FeedDocument, compare_feeds d d = ⟨[], [], []⟩ := by
  refine ⟨fun a b => rfl, fun d => ?_⟩
  have hnd := nodup_extract d
  have hlook : ∀ kv ∈ extract_items d, dictFind (extract_items d) kv.1 = some kv.2 := by
    intro kv hkv
    obtain ⟨k, v⟩ := kv
    exact dictFind_mem hnd hkv
  simp only [compare_feeds, FeedDiff.mk.injEq]
  refine ⟨?_, ?_, ?_⟩ <;>
    refine List.filterMap_eq_nil_iff.mpr fun kv hkv => ?_ <;>
    simp [hlook kv hkv]

/-! ### C10: the chunked checksum equals the whole-buffer digest -/

/-- The bytes a fold of `update` calls has fed. -/
theorem fed_foldl (cs : List (List Nat)) :
    ∀ c : Sha256Ctx, (cs.foldl Sha256Ctx.update c).fed = c.fed ++ cs.flatten := by
  induction cs with
  | nil => intro c; simp
  | cons hd rest ih =>
    intro c
    simp [ih, Sha256Ctx.update, List.append_assoc]

/-- The 4096-byte read chunks reassemble to the file. -/
theorem readChunks_flatten (l : List Nat) : (readChunks l).flatten = l := by
  have H : ∀ (n : Nat) (l : List Nat), l.length ≤ n → (readChunks l).flatten = l := by
    intro n
    induction n with
    | zero =>
      intro l h
      have hnil : l = [] := List.eq_nil_of_length_eq_zero (Nat.le_zero.mp h)
      subst hnil
      rw [readChunks]
      simp
    | succ n ih =>
      intro l h
      rw [readChunks]
      by_cases hl : l = []
      · simp [hl]
      · rw [dif_neg hl, List.flatten_cons]
        have hlen : (l.drop 4096).length ≤ n := by
          have hpos := List.length_pos.mpr hl
          simp only [List.length_drop]
          omega
        rw [ih (l.drop 4096) hlen]
        exact List.take_append_drop 4096 l
  exact H l.length l le_rfl

/-- C10: feeding the file to SHA-256 in successive 4096-byte blocks
produces the hex digest of the entire contents taken as one buffer; more
generally the digest after any sequence of `update` calls depends only
on the concatenation of the fed chunks, so identical contents give
identical checksum strings regardless of the block split. -/
theorem checksum_chunking_eq :
    (∀ fileBytes : List Nat, calculate_checksum fileBytes = bytesToHex (sha256 fileBytes)) ∧
      ∀ chunks : List (List Nat),
        (chunks.foldl Sha256Ctx.update ⟨[]⟩).hexdigest = bytesToHex (sha256 chunks.flatten) := by
  constructor
  · intro bs
    unfold calculate_checksum Sha256Ctx.hexdigest
    rw [fed_foldl]
    simp [readChunks_flatten]
  · intro chunks
    unfold Sha256Ctx.hexdigest
    rw [fed_foldl]
    simp

/-! ### C6: what the date checks accept -/

/-- The profile exactly as claim C6 words it: four digits, dash, two
digits, dash, two digits, literal `T`, three colon-separated two-digit
fields, literal `Z`.  Stated from the claim's words, for comparison with
`parsePyDate`. -/
def exactProfileClaim (s : String) : Bool :=
  match s.toList with
  | [y1, y2, y3, y4, d1, a1, a2, d2, b1, b2, tc, c1, c2, s1, e1, e2, s2, f1, f2, zc] =>
    y1.isDigit && y2.isDigit && y3.isDigit && y4.isDigit && d1 == '-' &&
      a1.isDigit && a2.isDigit && d2 == '-' && b1.isDigit && b2.isDigit &&
      tc == 'T' && c1.isDigit && c2.isDigit && s1 == ':' && e1.isDigit &&
      e2.isDigit && s2 == ':' && f1.isDigit && f2.isDigit && zc == 'Z'
  | _ => false

/-- C6 counterexample: `"2020-1-02T03:04:05Z"` does not conform to the
claim's exact zero-padded profile, so the claim predicts a `DATE_FORMAT`
finding; but `strptime` accepts the one-digit month, the instant is in
the past, and the date rule reports nothing at all. -/
theorem date_profile_counterexample :
    exactProfileClaim "2020-1-02T03:04:05Z" = false ∧
      validate_dates (channelDoc (some "2020-1-02T03:04:05Z") none) sampleNow = [] := by
  decide

/-- Membership in one date-field check, by parse outcome. -/
theorem checkDateField_mem (f s : String) (now : PyDateTime) (e : ValidationError) :
    e ∈ checkDateField f s now ↔
      (parsePyDate s = none ∧ e = .dateFormat f s) ∨
        ∃ dt, parsePyDate s = some dt ∧ now.toSec < dt.toSec ∧ e = .dateFuture f s := by
  unfold checkDateField
  cases h : parsePyDate s with
  | none => simp [h]
  | some dt => by_cases hf : now.toSec < dt.toSec <;> simp [h, hf]

/-- Membership in the date rule: a finding comes from the
`lastBuildDate` check or from some `pubDate`'s check. -/
theorem validate_dates_mem (d : FeedDocument) (now : PyDateTime) (e : ValidationError) :
    e ∈ validate_dates d now ↔
      (∃ s, d.lastBuildDate = some s ∧ e ∈ checkDateField "lastBuildDate" s now) ∨
        ∃ s, s ∈ pubDatesOf d ∧ e ∈ checkDateField "pubDate" s now := by
  unfold validate_dates
  cases h : d.lastBuildDate with
  | none => simp [List.mem_flatten, List.mem_map]
  | some s => simp [List.mem_flatten, List.mem_map]

/-- C6 amended: the date checks accept exactly what `strptime` with
format `%Y-%m-%dT%H:%M:%SZ` accepts — a four-digit year but one- or
two-digit month/day/hour/minute/second within range, `T`/`Z` in either
case, and a calendar-valid day — rather than the exact zero-padded
profile.  For `lastBuildDate` and each `pubDate`: a rejected string
yields `DATE_FORMAT` and never `DATE_FUTURE`; an accepted string
strictly after `now` yields `DATE_FUTURE` and never `DATE_FORMAT`; an
accepted, non-future string yields neither. -/
theorem date_rule_trichotomy :
    (∀ (d : FeedDocument) (now : PyDateTime) (s : String), d.lastBuildDate = some s →
      ((parsePyDate s = none →
          ValidationError.dateFormat "lastBuildDate" s ∈ validate_dates d now ∧
            ValidationError.dateFuture "lastBuildDate" s ∉ validate_dates d now) ∧
        ∀ dt, parsePyDate s = some dt →
          ((now.toSec < dt.toSec →
              ValidationError.dateFuture "lastBuildDate" s ∈ validate_dates d now) ∧
            ValidationError.dateFormat "lastBuildDate" s ∉ validate_dates d now ∧
            (¬ now.toSec < dt.toSec →
              ValidationError.dateFuture "lastBuildDate" s ∉ validate_dates d now)))) ∧
      (∀ (d : FeedDocument) (now : PyDateTime) (s : String), s ∈ pubDatesOf d →
        ((parsePyDate s = none →
            ValidationError.dateFormat "pubDate" s ∈ validate_dates d now ∧
              ValidationError.dateFuture "pubDate" s ∉ validate_dates d now) ∧
          ∀ dt, parsePyDate s = some dt →
            ((now.toSec < dt.toSec →
                ValidationError.dateFuture "pubDate" s ∈ validate_dates d now) ∧
              ValidationError.dateFormat "pubDate" s ∉ validate_dates d now ∧
              (¬ now.toSec < dt.toSec →
                ValidationError.dateFuture "pubDate" s ∉ validate_dates d now)))) ∧
      parsePyDate "2020-1-2T3:4:5z" = some ⟨2020, 1, 2, 3, 4, 5⟩ ∧
      parsePyDate "2021-02-29T00:00:00Z" = none := by
  refine ⟨?_, ?_, by decide, by decide⟩
  · intro d now s hlbd
    constructor
    · intro hp
      constructor
      · exact (validate_dates_mem d now _).mpr
          (Or.inl ⟨s, hlbd, (checkDateField_mem _ s now _).mpr (Or.inl ⟨hp, rfl⟩)⟩)
      · intro hmem
        rcases (validate_dates_mem d now _).mp hmem with ⟨s2, hs2, hin⟩ | ⟨s2, _, hin⟩
        · rw [hlbd] at hs2
          injection hs2 with hs2e
          subst hs2e
          rcases (checkDateField_mem _ s now _).mp hin with ⟨_, heq⟩ | ⟨dt, hdt, _, _⟩
          · exact ValidationError.noConfusion heq
          · rw [hp] at hdt
            exact Option.noConfusion hdt
        · rcases (checkDateField_mem _ s2 now _).mp hin with ⟨_, heq⟩ | ⟨_, _, _, heq⟩
          · exact ValidationError.noConfusion heq
          · injection heq with hfe _
            exact absurd hfe (by decide)
    · intro dt hp
      refine ⟨?_, ?_, ?_⟩
      · intro hfut
        exact (validate_dates_mem d now _).mpr
          (Or.inl ⟨s, hlbd, (checkDateField_mem _ s now _).mpr (Or.inr ⟨dt, hp, hfut, rfl⟩)⟩)
      · intro hmem
        rcases (validate_dates_mem d now _).mp hmem with ⟨s2, hs2, hin⟩ | ⟨s2, _, hin⟩
        · rw [hlbd] at hs2
          injection hs2 with hs2e
          subst hs2e
          rcases (checkDateField_mem _ s now _).mp hin with ⟨hn, _⟩ | ⟨_, _, _, heq⟩
          · rw [hp] at hn
            exact Option.noConfusion hn
          · exact ValidationError.noConfusion heq
        · rcases (checkDateField_mem _ s2 now _).mp hin with ⟨_, heq⟩ | ⟨_, _, _, heq⟩
          · injection heq with hfe _
            exact absurd hfe (by decide)
          · exact ValidationError.noConfusion heq
      · intro hnf hmem
        rcases (validate_dates_mem d now _).mp hmem with ⟨s2, hs2, hin⟩ | ⟨s2, _, hin⟩
        · rw [hlbd] at hs2
          injection hs2 with hs2e
          subst hs2e
          rcases (checkDateField_mem _ s now _).mp hin with ⟨_, heq⟩ | ⟨dt2, hdt2, hfut2, _⟩
          · exact ValidationError.noConfusion heq
          · rw [hp] at hdt2
            injection hdt2 with hdte
            subst hdte
            exact hnf hfut2
        · rcases (checkDateField_mem _ s2 now _).mp hin with ⟨_, heq⟩ | ⟨_, _, _, heq⟩
          · exact ValidationError.noConfusion heq
          · injection heq with hfe _
            exact absurd hfe (by decide)
  · intro d now s hpub
    constructor
    · intro hp
      constructor
      · exact (validate_dates_mem d now _).mpr
          (Or.inr ⟨s, hpub, (checkDateField_mem _ s now _).mpr (Or.inl ⟨hp, rfl⟩)⟩)
      · intro hmem
        rcases (validate_dates_mem d now _).mp hmem with ⟨s2, _, hin⟩ | ⟨s2, _, hin⟩
        · rcases (checkDateField_mem _ s2 now _).mp hin with ⟨_, heq⟩ | ⟨_, _, _, heq⟩
          · exact ValidationError.noConfusion heq
          · injection heq with hfe _
            exact absurd hfe (by decide)
        · rcases (checkDateField_mem _ s2 now _).mp hin with ⟨_, heq⟩ | ⟨dt2, hdt2, _, heq⟩
          · exact ValidationError.noConfusion heq
          · injection heq with _ hse
            subst hse
            rw [hp] at hdt2
            exact Option.noConfusion hdt2
    · intro dt hp
      refine ⟨?_, ?_, ?_⟩
      · intro hfut
        exact (validate_dates_mem d now _).mpr
          (Or.inr ⟨s, hpub, (checkDateField_mem _ s now _).mpr (Or.inr ⟨dt, hp, hfut, rfl⟩)⟩)
      · intro hmem
        rcases (validate_dates_mem d now _).mp hmem with ⟨s2, _, hin⟩ | ⟨s2, _, hin⟩
        · rcases (checkDateField_mem _ s2 now _).mp hin with ⟨_, heq⟩ | ⟨_, _, _, heq⟩
          · injection heq with hfe _
            exact absurd hfe (by decide)
          · exact ValidationError.noConfusion heq
        · rcases (checkDateField_mem _ s2 now _).mp hin with ⟨hn2, heq⟩ | ⟨_, _, _, heq⟩
          · injection heq with _ hse
            subst hse
            rw [hp] at hn2
            exact Option.noConfusion hn2
          · exact ValidationError.noConfusion heq
      · intro hnf hmem
        rcases (validate_dates_mem d now _).mp hmem with ⟨s2, _, hin⟩ | ⟨s2, _, hin⟩
        · rcases (checkDateField_mem _ s2 now _).mp hin with ⟨_, heq⟩ | ⟨_, _, _, heq⟩
          · exact ValidationError.noConfusion heq
          · injection heq with hfe _
            exact absurd hfe (by decide)
        · rcases (checkDateField_mem _ s2 now _).mp hin with ⟨_, heq⟩ | ⟨dt2, hdt2, hfut2, heq⟩
          · exact ValidationError.noConfusion heq
          · injection heq with _ hse
            subst hse
            rw [hp] at hdt2
            injection hdt2 with hdte
            subst hdte
            exact hnf hfut2

/-! ### C7: when the URI rule reports a link -/

/-- An itemless document with the given channel link. -/
def linkDoc (l : String) : FeedDocument :=
  ⟨"t", l, "d", none, none, []⟩

/-- C7 counterexample: the claim says any whitespace character in a link
yields a `URI_INVALID` finding, but the source only tests for the space
character `' '` and `urlparse` strips tabs before parsing: a link
containing a tab — a whitespace character — produces no finding. -/
theorem uri_whitespace_counterexample :
    ('\t' ∈ "http://ex.com/a\tb".toList ∧ Char.isWhitespace '\t' = true) ∧
      validate_uris (linkDoc "http://ex.com/a\tb") = [] := by
  decide

/-- A link the URI rule accepts, as the amended claim words it: the raw
string literally starts with `http://` or `https://`; the authority
component (between `//` and the next `/`, `?` or `#`, after tab/CR/LF
stripping) has balanced square brackets, is non-empty and contains a
`.`; and the raw string contains no space character U+0020 — other
whitespace characters are not themselves flagged. -/
def specLinkOk (url : String) : Bool :=
  (httpTest url || httpsTest url) && !bracketMismatch (netlocOf url) &&
    !(netlocOf url).isEmpty && !url.toList.contains ' ' && (netlocOf url).contains '.'

/-- C7 amended: the URI rule reports at least one finding for a link iff
the link fails `specLinkOk` — i.e. iff it misses the literal scheme
prefix, or its authority is empty, bracket-mismatched or dot-free, or it
contains a space character; whitespace other than U+0020 alone never
triggers a finding.  Lifted to documents: the rule is silent iff every
link (channel and items) passes. -/
theorem uri_rule_iff :
    (∀ url, checkLink url = [] ↔ specLinkOk url = true) ∧
      ∀ d : FeedDocument, validate_uris d = [] ↔ ∀ u ∈ docLinks d, specLinkOk u = true := by
  have h1 : ∀ url, checkLink url = [] ↔ specLinkOk url = true := by
    intro url
    unfold checkLink specLinkOk
    by_cases hpre : (httpTest url || httpsTest url) = true
    · simp only [hpre, Bool.not_true, Bool.false_eq_true, if_false, Bool.true_and]
      by_cases hbr : bracketMismatch (netlocOf url) = true
      · simp [hbr]
      · have hbr2 : bracketMismatch (netlocOf url) = false := by
          simpa using hbr
        simp only [hbr2, Bool.false_eq_true, if_false, Bool.not_false, Bool.true_and]
        by_cases he : (netlocOf url).isEmpty <;>
          by_cases hsp : url.toList.contains ' ' <;>
          by_cases hdot : (netlocOf url).contains '.' <;>
          simp [he, hsp, hdot]
    · have hpre2 : (httpTest url || httpsTest url) = false := by simpa using hpre
      simp [hpre2]
  refine ⟨h1, fun d => ?_⟩
  unfold validate_uris
  rw [List.flatten_eq_nil_iff]
  constructor
  · intro h u hu
    exact (h1 u).mp (h (checkLink u) (List.mem_map_of_mem _ hu))
  · intro h x hx
    obtain ⟨u, hu, rfl⟩ := List.mem_map.mp hx
    exact (h1 u).mpr (h u hu)

/-! ### C8: which item drives the retention verdict -/

theorem foldlMin_le (xs : List Int) (a : Int) :
    xs.foldl min a ≤ a ∧ ∀ x ∈ xs, xs.foldl min a ≤ x := by
  induction xs generalizing a with
  | nil => simp
  | cons y ys ih =>
    constructor
    · calc ys.foldl min (min a y) ≤ min a y := (ih (min a y)).1
        _ ≤ a := min_le_left a y
    · intro x hx
      rcases List.mem_cons.mp hx with rfl | hx2
      · calc ys.foldl min (min a x) ≤ min a x := (ih (min a x)).1
          _ ≤ x := min_le_right a x
      · exact (ih (min a y)).2 x hx2

theorem foldlMin_mem (xs : List Int) (a : Int) :
    xs.foldl min a = a ∨ xs.foldl min a ∈ xs := by
  induction xs generalizing a with
  | nil => simp
  | cons y ys ih =>
    rcases ih (min a y) with h | h
    · rcases le_total a y with hay | hay
      · rw [List.foldl_cons, h, min_eq_left hay]
        exact Or.inl rfl
      · rw [List.foldl_cons, h, min_eq_right hay]
        exact Or.inr (List.mem_cons_self _ _)
    · refine Or.inr (List.mem_cons_of_mem _ ?_)
      rw [List.foldl_cons]
      exact h

/-- A two-item document whose newest item is 30 days old at `sampleNow`
and whose oldest is about 14 months old. -/
def retentionDoc : FeedDocument :=
  ⟨"t", "https://e.x/", "d", none, none,
   [itemWithDate "2025-12-02T00:00:00Z", itemWithDate "2024-11-01T00:00:00Z"]⟩

/-- A document whose only item is 30 days old at `sampleNow`. -/
def retentionDoc30 : FeedDocument :=
  ⟨"t", "https://e.x/", "d", none, none, [itemWithDate "2025-12-02T00:00:00Z"]⟩

/-- C8 counterexample: in `retentionDoc` the newest item's `pubDate` is
30 days before `sampleNow` and the configured minimum is 365 days, so
the claim predicts `RETENTION_TOO_SHORT` regardless of the other items;
but the rule measures the OLDEST `pubDate` (426 days), so it reports
nothing. -/
theorem retention_newest_counterexample :
    parsePyDate "2025-12-02T00:00:00Z" = some ⟨2025, 12, 2, 0, 0, 0⟩ ∧
      pyDaysBetween sampleNow ⟨2025, 12, 2, 0, 0, 0⟩ = 30 ∧
      MIN_RETENTION_DAYS = 365 ∧
      validate_retention retentionDoc sampleNow = [] := by
  decide

/-- C8 amended: the retention verdict is driven by the oldest parsable
`pubDate`, not the newest.  If the document has at least one parsable
`pubDate` and every one of them — hence in particular the oldest — is
less than 365 days old, a `RETENTION_TOO_SHORT` finding is produced (so
a document whose only item is 30 days old is flagged); but one parsable
`pubDate` at least 365 days old silences the rule no matter how new the
other items are. -/
theorem retention_oldest_rule (d : FeedDocument) (now : PyDateTime) :
    ((∀ p ∈ parsedPubDates d, pyDaysBetween now p < 365) → parsedPubDates d ≠ [] →
        ∃ k, ValidationError.retentionTooShort k ∈ validate_retention d now) ∧
      ((∃ p ∈ parsedPubDates d, 365 ≤ pyDaysBetween now p) →
        validate_retention d now = []) := by
  constructor
  · intro hall hne
    cases hpd : parsedPubDates d with
    | nil => exact absurd hpd hne
    | cons p ps =>
      have heq : validate_retention d now =
          if Int.fdiv (now.toSec - (ps.map PyDateTime.toSec).foldl min p.toSec) 86400 <
              (MIN_RETENTION_DAYS : Int) then
            [ValidationError.retentionTooShort
              (Int.fdiv (now.toSec - (ps.map PyDateTime.toSec).foldl min p.toSec) 86400)]
          else [] := by
        unfold validate_retention
        rw [hpd]
      have hdays : Int.fdiv (now.toSec - (ps.map PyDateTime.toSec).foldl min p.toSec) 86400 <
          365 := by
        rcases foldlMin_mem (ps.map PyDateTime.toSec) p.toSec with h | h
        · rw [h]
          exact hall p (by rw [hpd]; exact List.mem_cons_self _ _)
        · obtain ⟨q, hq, hqe⟩ := List.mem_map.mp h
          rw [← hqe]
          exact hall q (by rw [hpd]; exact List.mem_cons_of_mem _ hq)
      rw [heq, if_pos (by simpa [MIN_RETENTION_DAYS] using hdays)]
      exact ⟨_, List.mem_singleton.mpr rfl⟩
  · rintro ⟨p0, hp0, h365⟩
    cases hpd : parsedPubDates d with
    | nil =>
      unfold validate_retention
      rw [hpd]
    | cons p ps =>
      have heq : validate_retention d now =
          if Int.fdiv (now.toSec - (ps.map PyDateTime.toSec).foldl min p.toSec) 86400 <
              (MIN_RETENTION_DAYS : Int) then
            [ValidationError.retentionTooShort
              (Int.fdiv (now.toSec - (ps.map PyDateTime.toSec).foldl min p.toSec) 86400)]
          else [] := by
        unfold validate_retention
        rw [hpd]
      have hle : (ps.map PyDateTime.toSec).foldl min p.toSec ≤ p0.toSec := by
        have hf := foldlMin_le (ps.map PyDateTime.toSec) p.toSec
        rw [hpd] at hp0
        rcases List.mem_cons.mp hp0 with rfl | hmem
        · exact hf.1
        · exact hf.2 _ (List.mem_map_of_mem _ hmem)
      have hge : (365 : Int) ≤
          Int.fdiv (now.toSec - (ps.map PyDateTime.toSec).foldl min p.toSec) 86400 := by
        have hmono : Int.fdiv (now.toSec - p0.toSec) 86400 ≤
            Int.fdiv (now.toSec - (ps.map PyDateTime.toSec).foldl min p.toSec) 86400 := by
          rw [Int.fdiv_eq_ediv _ (by norm_num : (0 : Int) ≤ 86400),
            Int.fdiv_eq_ediv _ (by norm_num : (0 : Int) ≤ 86400)]
          exact Int.ediv_le_ediv (by norm_num) (by omega)
        exact le_trans h365 hmono
      rw [heq, if_neg]
      intro hlt
      have hlt2 : Int.fdiv (now.toSec - (ps.map PyDateTime.toSec).foldl min p.toSec) 86400 <
          365 := by simpa [MIN_RETENTION_DAYS] using hlt
      omega

theorem retention_oldest_rule_witness :
    (∀ p ∈ parsedPubDates retentionDoc30, pyDaysBetween sampleNow p < 365) ∧
      parsedPubDates retentionDoc30 ≠ [] ∧
      ∃ k, ValidationError.retentionTooShort k ∈
        validate_retention retentionDoc30 sampleNow :=
  ⟨by decide, by decide,
    (retention_oldest_rule retentionDoc30 sampleNow).1 (by decide) (by decide)⟩

theorem metric_inconsistency_first_seen_witness :
    ValidationError.metricInconsistent "X" "5" ∈
      validate_metrics (metricDoc2 [("X", "10%")] [("X", "5")]) :=
  metric_inconsistency_first_seen.2.2

theorem uri_rule_iff_witness :
    (checkLink "https://example.com/feed" = [] ↔
        specLinkOk "https://example.com/feed" = true) ∧
      checkLink "https://example.com/feed" = [] :=
  ⟨uri_rule_iff.1 "https://example.com/feed",
    (uri_rule_iff.1 "https://example.com/feed").mpr (by decide)⟩

theorem diff_self_empty_witness :
    compare_feeds retentionDoc retentionDoc = ⟨[], [], []⟩ :=
  diff_self_empty.2 retentionDoc

theorem checksum_chunking_eq_witness :
    calculate_checksum [1, 2, 3] = bytesToHex (sha256 [1, 2, 3]) :=
  checksum_chunking_eq.1 [1, 2, 3]

theorem date_rule_trichotomy_witness :
    (channelDoc (some "2030-01-01T00:00:00Z") none).lastBuildDate =
        some "2030-01-01T00:00:00Z" ∧
      parsePyDate "2030-01-01T00:00:00Z" = some ⟨2030, 1, 1, 0, 0, 0⟩ ∧
      sampleNow.toSec < (PyDateTime.mk 2030 1 1 0 0 0).toSec ∧
      ValidationError.dateFuture "lastBuildDate" "2030-01-01T00:00:00Z" ∈
        validate_dates (channelDoc (some "2030-01-01T00:00:00Z") none) sampleNow :=
  ⟨rfl, by decide, by decide,
    ((date_rule_trichotomy.1 (channelDoc (some "2030-01-01T00:00:00Z") none) sampleNow
          "2030-01-01T00:00:00Z" rfl).2 ⟨2030, 1, 1, 0, 0, 0⟩ (by decide)).1 (by decide)⟩

end ATF
